import Mathlib

/-!
# Lab 10 (Float) test harness: `firmware/src/main.c`

A shallow embedding of `main`, of its two interrupt callbacks and of the final
report, followed by the properties of the tally, the score, the report text and
the polling loop.

* `int32_t` / `int` values are integers; every arithmetic result is brought back
  into the signed 32-bit range by `wrap32`.
* The interrupt callbacks and one pass through the body of `while (true)` are
  the events of a run; a run is a list of events applied to `main`'s state.
* `asmFmax` and `testResult` are external: a run takes them as the function
  `TestResult`, which gives what the call writes through `&passCount`,
  `&failCount` and `&isUSARTTxComplete`.
* `nameStrPtr` (assembly data) and the two constants of `definitions.h` used by
  the callbacks are parameters.
-/

namespace Lab10Float

/-! ## Machine arithmetic -/

/-- Value of a signed 32-bit result: reduced modulo 2^32 into -2^31 .. 2^31 - 1. -/
def wrap32 (x : Int) : Int := (x + 2147483648) % 4294967296 - 2147483648

/-- C division of two 32-bit signed values: truncation toward zero; no value when
the divisor is zero, and none when the quotient is not a 32-bit value
(-2147483648 divided by -1). -/
def cdiv32 (a b : Int) : Option Int :=
  if b = 0 then none
  else if a = -2147483648 ∧ b = -1 then none
  else some (Int.tdiv a b)

/-! ## Constants and the test vector table -/

def MAX_PRINT_LEN : Nat := 1000

/-- A floating constant as it is written in the initialiser of `tc`:
`dec m e` is the decimal literal m * 10^e. -/
inductive FloatLit where
  | dec (m : Int) (e : Int)
  | NAN
  | INFINITY
  | NEG_INFINITY
  deriving DecidableEq, Repr

open FloatLit in
/-- The table `tc` (the branch `USE_DEBUG_TESTCASES 0`). -/
def tc : List (FloatLit × FloatLit) :=
  [ (dec 1175503179 (-47), dec 110203478208 (-49)),
    (dec (-2) (-1), dec (-1) (-1)),
    (dec 10 (-1), dec 20 (-1)),
    (dec (-31) (-1), dec (-12) (-1)),
    (NAN, dec 10 (-1)),
    (dec (-10) (-1), NAN),
    (dec 1 (-1), dec 99 (-2)),
    (dec 114437421182 (-39), dec 785066650391 (-9)),
    (dec (-40001) (-1), dec 0 (-1)),
    (dec (-19) (-6), dec (-19) (-6)),
    (dec 1347 7, dec 2867 (-13)),
    (dec 14 (-43), dec (-32) (-44)),
    (dec (-24) (-43), dec 2313 26),
    (INFINITY, NEG_INFINITY),
    (NEG_INFINITY, dec (-624) (-2)),
    (dec 10 (-1), dec 0 (-1)) ]

/-- The two constants of `definitions.h` that the callbacks compare against. -/
structure Definitions where
  RTC_MODE0_INTENSET_CMP0_Msk : Nat
  DMAC_TRANSFER_EVENT_COMPLETE : Nat

/-! ## State of `main` -/

/-- The file-scope flags and the locals of `main`. -/
structure MainState where
  isRTCExpired : Bool
  isUSARTTxComplete : Bool
  passCount : Int
  failCount : Int
  totalPassCount : Int
  totalFailCount : Int
  totalTestCount : Int
  iteration : Int
  deriving DecidableEq, Repr

/-- The state when `main` reaches `while (true)`. -/
def initState : MainState :=
  { isRTCExpired := false
    isUSARTTxComplete := true
    passCount := 0
    failCount := 0
    totalPassCount := 0
    totalFailCount := 0
    totalTestCount := 0
    iteration := 0 }

/-! ## Interrupt callbacks -/

def rtcEventHandler (d : Definitions) (intCause : Nat) (s : MainState) : MainState :=
  if intCause &&& d.RTC_MODE0_INTENSET_CMP0_Msk ≠ 0 then
    { s with isRTCExpired := true }
  else s

def usartDmaChannelHandler (d : Definitions) (event : Nat) (s : MainState) : MainState :=
  if event = d.DMAC_TRANSFER_EVENT_COMPLETE then
    { s with isUSARTTxComplete := true }
  else s

/-! ## The loop of `main` -/

/-- What one call `max = asmFmax(ff1,ff2); testResult(iteration, ...)` leaves in
the three variables it receives by address. -/
structure TestOutcome where
  passCount : Int
  failCount : Int
  isUSARTTxComplete : Bool
  deriving DecidableEq, Repr

/-- The external pair `asmFmax` / `testResult`, as a function of the iteration
number and of the two table values handed to it. -/
abbrev TestResult := Int → FloatLit → FloatLit → TestOutcome

/-- The element `tab[i]`; no value when `i` is outside the table. -/
def tableAt (tab : List (FloatLit × FloatLit)) (i : Int) : Option (FloatLit × FloatLit) :=
  if 0 ≤ i then tab[i.toNat]? else none

/-- The value `sizeof(tc)/sizeof(tc[0])` stored in `int maxIterations`. -/
def maxIterations (tab : List (FloatLit × FloatLit)) : Int := wrap32 tab.length

/-- Result of one pass through the body of `while (true)`. -/
structure LoopResult where
  state : MainState
  dispatched : Option Int
  brk : Bool

/-- One pass through the body of `while (true)`; no value when the pass reads
`tab[iteration]` outside the table. `LED0_Toggle()` and the two `if (false)`
debugging blocks have no effect on the variables modelled here; the conversion
of the two table values to `ff1`, `ff2` and the call of `asmFmax` are part of
`testResult`. -/
def loopBody (tab : List (FloatLit × FloatLit)) (testResult : TestResult)
    (s : MainState) : Option LoopResult :=
  if s.isRTCExpired = true then
    match tableAt tab s.iteration with
    | none => none
    | some (a, b) =>
      let o := testResult s.iteration a b
      let iteration := wrap32 (s.iteration + 1)
      some
        { state :=
            { isRTCExpired := false
              isUSARTTxComplete := o.isUSARTTxComplete
              passCount := o.passCount
              failCount := o.failCount
              totalPassCount := wrap32 (s.totalPassCount + o.passCount)
              totalFailCount := wrap32 (s.totalFailCount + o.failCount)
              totalTestCount := wrap32 (s.totalTestCount + wrap32 (o.failCount + o.passCount))
              iteration := iteration }
          dispatched := some s.iteration
          brk := decide (iteration ≥ maxIterations tab) }
  else
    some { state := s, dispatched := none, brk := false }

/-- What can happen during the loop: an RTC interrupt, a DMA interrupt, or one
pass of the loop body (a poll of `isRTCExpired`). -/
inductive Event where
  | rtc (intCause : Nat)
  | dma (event : Nat)
  | poll
  deriving DecidableEq, Repr

/-- A run of the loop so far: the state, the iteration numbers dispatched in
order, and whether `break` has been taken. -/
structure MainRun where
  state : MainState
  dispatched : List Int
  exited : Bool

def initRun : MainRun := { state := initState, dispatched := [], exited := false }

/-- One event. After `break` the loop takes no further pass. -/
def step (d : Definitions) (tab : List (FloatLit × FloatLit)) (testResult : TestResult)
    (r : MainRun) : Event → Option MainRun
  | Event.rtc c => some { r with state := rtcEventHandler d c r.state }
  | Event.dma e => some { r with state := usartDmaChannelHandler d e r.state }
  | Event.poll =>
    if r.exited = true then some r
    else
      match loopBody tab testResult r.state with
      | none => none
      | some res =>
        some
          { state := res.state
            dispatched := r.dispatched ++ res.dispatched.toList
            exited := res.brk }

/-- A sequence of events, from left to right. -/
def run (d : Definitions) (tab : List (FloatLit × FloatLit)) (testResult : TestResult) :
    MainRun → List Event → Option MainRun
  | r, [] => some r
  | r, e :: es =>
    match step d tab testResult r e with
    | none => none
    | some r' => run d tab testResult r' es

/-! ## Score and report -/

/-- The argument `20*totalPassCount/totalTestCount` of the final `snprintf`. -/
def score (s : MainState) : Option Int :=
  cdiv32 (wrap32 (20 * s.totalPassCount)) s.totalTestCount

/-- An argument of a formatted print. -/
inductive FmtArg where
  | str (s : List Char)
  | long (v : Int)

/-- Conversion `%ld`. -/
def fmtLd (v : Int) : List Char :=
  if v < 0 then '-' :: Nat.toDigits 10 v.natAbs else Nat.toDigits 10 v.natAbs

/-- Expansion of a format string with the conversions `%s` and `%ld`. -/
def vformat : List Char → List FmtArg → List Char
  | [], _ => []
  | '%' :: 's' :: rest, FmtArg.str s :: args => s ++ vformat rest args
  | '%' :: 'l' :: 'd' :: rest, FmtArg.long v :: args => fmtLd v ++ vformat rest args
  | c :: rest, args => c :: vformat rest args

/-- The bytes `snprintf(buf, n, ...)` stores in `buf` for the expanded text: at
most `n - 1` characters and the terminator. -/
def snprintf (n : Nat) (text : List Char) : List Char :=
  if n = 0 then [] else text.take (n - 1) ++ [Char.ofNat 0]

/-- The format of the final summary. -/
def summaryFormat : List Char :=
  ("========= %s: ALL TESTS COMPLETE!\r\n" ++
   "tests passed: %ld \r\n" ++
   "tests failed: %ld \r\n" ++
   "total tests:  %ld \r\n" ++
   "score: %ld/20 points \r\n\r\n").toList

/-- The expanded text of the final summary for a given fifth argument. -/
def summaryText (nameStr : List Char) (s : MainState) (sc : Int) : List Char :=
  vformat summaryFormat
    [FmtArg.str nameStr, FmtArg.long s.totalPassCount, FmtArg.long s.totalFailCount,
     FmtArg.long s.totalTestCount, FmtArg.long sc]

/-- The contents of `uartTxBuffer` after the final `snprintf`; no value when the
score expression has none. -/
def report (nameStr : List Char) (s : MainState) : Option (List Char) :=
  (score s).map fun sc => snprintf MAX_PRINT_LEN (summaryText nameStr s sc)


/-- The function `main` for a given sequence of events: the loop on `tc` and, once
`break` has been taken, the contents of `uartTxBuffer` after the final
`snprintf`. No value when the events do not bring the loop to `break`, or when
the score expression has none. -/
def main (d : Definitions) (nameStr : List Char) (testResult : TestResult)
    (evs : List Event) : Option (List Char) :=
  match run d tc testResult initRun evs with
  | some r => if r.exited = true then report nameStr r.state else none
  | none => none

/-! ## Vocabulary of the properties -/

/-- Number of iterations `i < k` in which the external call leaves
`passCount = 1`. -/
def passesBefore (tab : List (FloatLit × FloatLit)) (testResult : TestResult) : Nat → Nat
  | 0 => 0
  | k + 1 =>
    passesBefore tab testResult k +
      (match tab[k]? with
       | some (a, b) => if (testResult k a b).passCount = 1 then 1 else 0
       | none => 0)

/-- Number of polls in an event sequence that find `isRTCExpired` set, `flag`
being its value at the start: a compare-match interrupt sets the flag, a poll
that finds it set clears it. -/
def served (d : Definitions) : Bool → List Event → Nat
  | _, [] => 0
  | flag, Event.rtc c :: es =>
    served d (flag || decide (c &&& d.RTC_MODE0_INTENSET_CMP0_Msk ≠ 0)) es
  | flag, Event.dma _ :: es => served d flag es
  | true, Event.poll :: es => 1 + served d false es
  | false, Event.poll :: es => served d false es

/-- The iteration numbers `0, 1, ..., k - 1`. -/
def firstIterations (k : Nat) : List Int := (List.range k).map Int.ofNat

/-! ## Inputs used in the examples -/

/-- Values for the two constants of `definitions.h`, used in the examples. -/
def exampleDefinitions : Definitions :=
  { RTC_MODE0_INTENSET_CMP0_Msk := 256, DMAC_TRANSFER_EVENT_COMPLETE := 1 }

/-- The schedule "compare-match interrupt, then poll", `n` times. -/
def ticks (c : Nat) : Nat → List Event
  | 0 => []
  | n + 1 => Event.rtc c :: Event.poll :: ticks c n

/-- External call that reports one pass in every iteration except iteration 3,
where it reports one fail. -/
def passPassPassFail : TestResult :=
  fun i _ _ => if i = 3 then ⟨0, 1, true⟩ else ⟨1, 0, true⟩

/-- External call that reports neither a pass nor a fail. -/
def reportsNothing : TestResult := fun _ _ _ => ⟨0, 0, true⟩

/-- External call that reports one pass and returns with the channel flag
cleared. -/
def leavesChannelBusy : TestResult := fun _ _ _ => ⟨1, 0, false⟩

/-- External call that reports 107374183 passes in iteration 0 and nothing
afterwards. -/
def manyPassesAtOnce : TestResult :=
  fun i _ _ => if i = 0 then ⟨107374183, 0, true⟩ else ⟨0, 0, true⟩

/-- The run that ends the loop on `tc` when iteration 3 fails and the others
pass. -/
def passPassPassFailEnd : MainRun :=
  { state :=
      { isRTCExpired := false
        isUSARTTxComplete := true
        passCount := 1
        failCount := 0
        totalPassCount := 15
        totalFailCount := 1
        totalTestCount := 16
        iteration := 16 }
    dispatched := [0, 1, 2, 3, 4, 5, 6, 7, 8, 9, 10, 11, 12, 13, 14, 15]
    exited := true }

/-- The run that ends the loop on the first four entries of `tc` with the
outcomes pass, pass, pass, fail. -/
def fourIterationsEnd : MainRun :=
  { state :=
      { isRTCExpired := false
        isUSARTTxComplete := true
        passCount := 0
        failCount := 1
        totalPassCount := 3
        totalFailCount := 1
        totalTestCount := 4
        iteration := 4 }
    dispatched := [0, 1, 2, 3]
    exited := true }

/-- The run that ends the loop on `tc` when no call reports anything. -/
def reportsNothingEnd : MainRun :=
  { state :=
      { isRTCExpired := false
        isUSARTTxComplete := true
        passCount := 0
        failCount := 0
        totalPassCount := 0
        totalFailCount := 0
        totalTestCount := 0
        iteration := 16 }
    dispatched := [0, 1, 2, 3, 4, 5, 6, 7, 8, 9, 10, 11, 12, 13, 14, 15]
    exited := true }

/-- The run that ends the loop on `tc` when iteration 0 reports 107374183
passes. -/
def manyPassesEnd : MainRun :=
  { state :=
      { isRTCExpired := false
        isUSARTTxComplete := true
        passCount := 0
        failCount := 0
        totalPassCount := 107374183
        totalFailCount := 0
        totalTestCount := 107374183
        iteration := 16 }
    dispatched := [0, 1, 2, 3, 4, 5, 6, 7, 8, 9, 10, 11, 12, 13, 14, 15]
    exited := true }

/-- A state in which the timer flag is set while the channel flag is cleared. -/
def busyState : MainState :=
  { initState with isRTCExpired := true, isUSARTTxComplete := false }

/-- What one pass through the loop body makes of `busyState` on `tc` when the
external call is `passPassPassFail`. -/
def busyStateResult : LoopResult :=
  { state :=
      { isRTCExpired := false
        isUSARTTxComplete := true
        passCount := 1
        failCount := 0
        totalPassCount := 1
        totalFailCount := 0
        totalTestCount := 1
        iteration := 1 }
    dispatched := some 0
    brk := false }

/-! ## Properties -/

set_option maxRecDepth 16384

/-! ### Auxiliary facts -/

theorem wrap32_of_range {x : Int} (h1 : -2147483648 ≤ x) (h2 : x ≤ 2147483647) :
    wrap32 x = x := by
  unfold wrap32; omega

theorem wrap32_sum_step {tp tf tt p f : Int} (h : wrap32 (tp + tf) = tt) :
    wrap32 (wrap32 (tp + p) + wrap32 (tf + f)) = wrap32 (tt + wrap32 (f + p)) := by
  unfold wrap32 at *; omega

/-- Either an event leaves the counters, the dispatch record and the exit mark
alone, or it is a poll that finds the flag set and dispatches `tab[iteration]`. -/
theorem step_cases {d : Definitions} {tab : List (FloatLit × FloatLit)} {tr : TestResult}
    {r r' : MainRun} {e : Event} (h : step d tab tr r e = some r') :
    (r'.dispatched = r.dispatched ∧ r'.exited = r.exited ∧
      r'.state.totalPassCount = r.state.totalPassCount ∧
      r'.state.totalFailCount = r.state.totalFailCount ∧
      r'.state.totalTestCount = r.state.totalTestCount ∧
      r'.state.iteration = r.state.iteration ∧
      (r'.state.isUSARTTxComplete = true ∨
        r'.state.isUSARTTxComplete = r.state.isUSARTTxComplete)) ∨
    (r.exited = false ∧ r.state.isRTCExpired = true ∧
      ∃ a b, tableAt tab r.state.iteration = some (a, b) ∧
        r'.dispatched = r.dispatched ++ [r.state.iteration] ∧
        r'.exited = decide (wrap32 (r.state.iteration + 1) ≥ maxIterations tab) ∧
        r'.state.isRTCExpired = false ∧
        r'.state.isUSARTTxComplete = (tr r.state.iteration a b).isUSARTTxComplete ∧
        r'.state.totalPassCount =
          wrap32 (r.state.totalPassCount + (tr r.state.iteration a b).passCount) ∧
        r'.state.totalFailCount =
          wrap32 (r.state.totalFailCount + (tr r.state.iteration a b).failCount) ∧
        r'.state.totalTestCount =
          wrap32 (r.state.totalTestCount +
            wrap32 ((tr r.state.iteration a b).failCount + (tr r.state.iteration a b).passCount)) ∧
        r'.state.iteration = wrap32 (r.state.iteration + 1)) := by
  cases e with
  | rtc c =>
    simp only [step, Option.some.injEq] at h
    subst h
    left
    unfold rtcEventHandler
    split <;> simp
  | dma ev =>
    simp only [step, Option.some.injEq] at h
    subst h
    left
    unfold usartDmaChannelHandler
    split <;> simp
  | poll =>
    simp only [step] at h
    cases hx : r.exited with
    | true =>
      simp only [hx, if_true, Option.some.injEq] at h
      subst h
      left; simp [hx]
    | false =>
      simp only [hx, Bool.false_eq_true, if_false] at h
      cases hf : r.state.isRTCExpired with
      | false =>
        simp only [loopBody, hf, Bool.false_eq_true, if_false, Option.some.injEq] at h
        subst h
        left; simp [hx]
      | true =>
        cases ht : tableAt tab r.state.iteration with
        | none => simp [loopBody, hf, ht] at h
        | some ab =>
          obtain ⟨a, b⟩ := ab
          simp only [loopBody, hf, ht, if_true, Option.some.injEq] at h
          subst h
          right
          exact ⟨rfl, rfl, a, b, rfl, rfl, rfl, rfl, rfl, rfl, rfl, rfl, rfl⟩

/-- A property kept by every event holds along every run. -/
theorem run_induction {d : Definitions} {tab : List (FloatLit × FloatLit)} {tr : TestResult}
    (P : MainRun → Prop)
    (hstep : ∀ r e r', P r → step d tab tr r e = some r' → P r') :
    ∀ (evs : List Event) (r r' : MainRun), P r → run d tab tr r evs = some r' → P r' := by
  intro evs
  induction evs with
  | nil =>
    intro r r' hP h
    simp only [run, Option.some.injEq] at h
    subst h; exact hP
  | cons e es ih =>
    intro r r' hP h
    simp only [run] at h
    cases hs : step d tab tr r e with
    | none => simp [hs] at h
    | some r1 =>
      simp only [hs] at h
      exact ih r1 r' (hstep r e r1 hP hs) h

theorem tableAt_natCast {tab : List (FloatLit × FloatLit)} {k : Nat} {a b : FloatLit}
    (h : tableAt tab (k : Int) = some (a, b)) : tab[k]? = some (a, b) ∧ k < tab.length := by
  unfold tableAt at h
  simp only [Int.natCast_nonneg, if_true, Int.toNat_ofNat] at h
  refine ⟨h, ?_⟩
  by_contra hlt
  rw [List.getElem?_eq_none (by omega)] at h
  simp at h

theorem maxIterations_eq {tab : List (FloatLit × FloatLit)} (hN : tab.length ≤ 2147483647) :
    maxIterations tab = (tab.length : Int) := by
  unfold maxIterations
  exact wrap32_of_range (by omega) (by omega)

theorem wrap32_natCast {n : Nat} (h : n ≤ 2147483647) : wrap32 (n : Int) = (n : Int) :=
  wrap32_of_range (by omega) (by omega)

theorem wrap32_natCast_succ {k n : Nat} (hlt : k < n) (hn : n ≤ 2147483647) :
    wrap32 ((k : Int) + 1) = ((k + 1 : Nat) : Int) := by
  rw [wrap32_of_range (by omega) (by omega)]; push_cast; rfl

theorem wrap32_natCast_sub {p k n : Nat} (hp : p ≤ k) (hk : k ≤ n) (hn : n ≤ 2147483647) :
    wrap32 ((k : Int) - (p : Int)) = (k : Int) - (p : Int) :=
  wrap32_of_range (by omega) (by omega)

theorem wrap32_natCast_sub_succ {p k n : Nat} (hp : p ≤ k) (hlt : k < n) (hn : n ≤ 2147483647) :
    wrap32 ((k : Int) - (p : Int) + 1) = ((k + 1 : Nat) : Int) - (p : Int) := by
  rw [wrap32_of_range (by omega) (by omega)]; push_cast; ring

theorem wrap32_one : wrap32 1 = 1 := by decide

theorem exit_test {k n : Nat} (hlt : k < n) (hn : n ≤ 2147483647) :
    decide (wrap32 ((k : Int) + 1) ≥ (n : Int)) = decide (k + 1 = n) := by
  rw [wrap32_natCast_succ hlt hn]
  apply decide_eq_decide.mpr
  constructor
  · intro h
    have h' : n ≤ k + 1 := by exact_mod_cast h
    omega
  · intro h
    rw [h]

/-- Totals at the end of the loop when every iteration is one pass or one fail. -/
theorem tally_pass_fail (d : Definitions) (tab : List (FloatLit × FloatLit)) (tr : TestResult)
    (hN : tab.length ≤ 2147483647)
    (hout : ∀ (k : Nat) (a b : FloatLit), tab[k]? = some (a, b) →
      ((tr k a b).passCount = 1 ∧ (tr k a b).failCount = 0) ∨
      ((tr k a b).passCount = 0 ∧ (tr k a b).failCount = 1))
    (evs : List Event) (r : MainRun) (h : run d tab tr initRun evs = some r) :
    ∃ k : Nat, r.state.iteration = (k : Int) ∧ k ≤ tab.length ∧
      passesBefore tab tr k ≤ k ∧
      r.state.totalPassCount = (passesBefore tab tr k : Int) ∧
      r.state.totalFailCount = (k : Int) - (passesBefore tab tr k : Int) ∧
      r.state.totalTestCount = (k : Int) ∧
      (r.exited = true → k = tab.length) := by
  refine run_induction
    (fun r => ∃ k : Nat, r.state.iteration = (k : Int) ∧ k ≤ tab.length ∧
      passesBefore tab tr k ≤ k ∧
      r.state.totalPassCount = (passesBefore tab tr k : Int) ∧
      r.state.totalFailCount = (k : Int) - (passesBefore tab tr k : Int) ∧
      r.state.totalTestCount = (k : Int) ∧
      (r.exited = true → k = tab.length))
    ?_ evs initRun r ⟨0, by simp [initRun, initState, passesBefore]⟩ h
  rintro r e r' ⟨k, hk, hkN, hP, htp, htf, htt, hex⟩ hs
  rcases step_cases hs with ⟨_, h0, h1, h2, h3, h4, _⟩ |
    ⟨_, _, a, b, hab, _, hx, _, _, h1, h2, h3, h4⟩
  · exact ⟨k, by rw [h4, hk], hkN, hP, by rw [h1, htp], by rw [h2, htf], by rw [h3, htt],
      by rw [h0]; exact hex⟩
  · rw [hk] at hab h1 h2 h3 h4 hx
    obtain ⟨hget, hlt⟩ := tableAt_natCast hab
    rw [htp] at h1
    rw [htf] at h2
    rw [htt] at h3
    rw [maxIterations_eq hN, exit_test hlt hN] at hx
    rw [wrap32_natCast_succ hlt hN] at h4
    have hpb : passesBefore tab tr (k + 1) =
        passesBefore tab tr k + (if (tr k a b).passCount = 1 then 1 else 0) := by
      simp [passesBefore, hget]
    have hlast : r'.exited = true → k + 1 = tab.length := by
      intro hx'
      rw [hx'] at hx
      exact of_decide_eq_true hx.symm
    rcases hout k a b hget with ⟨hp, hf⟩ | ⟨hp, hf⟩
    · rw [hp] at h1 hpb
      rw [hf] at h2
      rw [hp, hf] at h3
      rw [wrap32_natCast_succ (Nat.lt_of_le_of_lt hP hlt) hN] at h1
      rw [Int.add_zero, wrap32_natCast_sub hP hkN hN] at h2
      rw [Int.zero_add, wrap32_one, wrap32_natCast_succ hlt hN] at h3
      rw [if_pos rfl] at hpb
      refine ⟨k + 1, h4, hlt, ?_, ?_, ?_, h3, hlast⟩
      · rw [hpb]; exact Nat.succ_le_succ hP
      · rw [h1, hpb]
      · rw [h2, hpb]; push_cast; ring
    · rw [hp] at h1 hpb
      rw [hf] at h2
      rw [hp, hf] at h3
      rw [Int.add_zero, wrap32_natCast (Nat.le_trans hP (Nat.le_trans hkN hN))] at h1
      rw [wrap32_natCast_sub_succ hP hlt hN] at h2
      rw [Int.add_zero, wrap32_one, wrap32_natCast_succ hlt hN] at h3
      rw [if_neg (by decide)] at hpb
      refine ⟨k + 1, h4, hlt, ?_, ?_, ?_, h3, hlast⟩
      · rw [hpb]; exact Nat.le_succ_of_le hP
      · rw [h1, hpb]; rfl
      · rw [h2, hpb]; rfl

theorem tableAt_of_lt {tab : List (FloatLit × FloatLit)} {k : Nat} (h : k < tab.length) :
    tableAt tab (k : Int) = some (tab[k].1, tab[k].2) := by
  unfold tableAt
  simp only [Int.natCast_nonneg, if_true, Int.toNat_ofNat]
  rw [List.getElem?_eq_getElem h]

theorem firstIterations_succ (k : Nat) :
    firstIterations (k + 1) = firstIterations k ++ [(k : Int)] := by
  simp [firstIterations, List.range_succ]

theorem step_poll_idle (d : Definitions) (tab : List (FloatLit × FloatLit)) (tr : TestResult)
    (r : MainRun) (hf : r.state.isRTCExpired = false) :
    step d tab tr r Event.poll = some r := by
  obtain ⟨s, ds, ex⟩ := r
  simp only at hf
  cases ex <;> simp [step, loopBody, hf]

theorem step_poll_exited (d : Definitions) (tab : List (FloatLit × FloatLit)) (tr : TestResult)
    (r : MainRun) (hx : r.exited = true) :
    step d tab tr r Event.poll = some r := by
  simp [step, hx]

theorem step_poll_dispatch (d : Definitions) (tab : List (FloatLit × FloatLit)) (tr : TestResult)
    (r : MainRun) (hx : r.exited = false) (hf : r.state.isRTCExpired = true)
    {a b : FloatLit} (ht : tableAt tab r.state.iteration = some (a, b)) :
    ∃ r', step d tab tr r Event.poll = some r' ∧
      r'.state.isRTCExpired = false ∧
      r'.state.iteration = wrap32 (r.state.iteration + 1) ∧
      r'.dispatched = r.dispatched ++ [r.state.iteration] ∧
      r'.exited = decide (wrap32 (r.state.iteration + 1) ≥ maxIterations tab) := by
  simp [step, loopBody, hx, hf, ht]

/-- From a state that has completed `k` iterations, any event sequence is run
without leaving the table, and completes as many further iterations as it has
polls that find the flag set, up to the size of the table. -/
theorem run_spec (d : Definitions) (tab : List (FloatLit × FloatLit)) (tr : TestResult)
    (hN : tab.length ≤ 2147483647) :
    ∀ (evs : List Event) (r : MainRun) (k : Nat), k ≤ tab.length →
      r.state.iteration = (k : Int) → r.dispatched = firstIterations k →
      r.exited = decide (k = tab.length) →
      ∃ r', run d tab tr r evs = some r' ∧
        r'.state.iteration = (min tab.length (k + served d r.state.isRTCExpired evs) : Nat) ∧
        r'.dispatched = firstIterations (min tab.length (k + served d r.state.isRTCExpired evs)) ∧
        r'.exited = decide (min tab.length (k + served d r.state.isRTCExpired evs) = tab.length) := by
  intro evs
  induction evs with
  | nil =>
    intro r k hk hit hd hx
    refine ⟨r, rfl, ?_, ?_, ?_⟩ <;> simp [served, Nat.min_eq_right hk, hit, hd, hx]
  | cons e es ih =>
    intro r k hk hit hd hx
    cases e with
    | rtc c =>
      have hflag : (rtcEventHandler d c r.state).isRTCExpired =
          (r.state.isRTCExpired || decide (c &&& d.RTC_MODE0_INTENSET_CMP0_Msk ≠ 0)) := by
        unfold rtcEventHandler
        split <;> simp [*]
      have hiter : (rtcEventHandler d c r.state).iteration = r.state.iteration := by
        unfold rtcEventHandler
        split <;> rfl
      obtain ⟨r', h1, h2, h3, h4⟩ :=
        ih { r with state := rtcEventHandler d c r.state } k hk (by rw [← hit]; exact hiter) hd hx
      refine ⟨r', ?_, ?_, ?_, ?_⟩
      · simpa [run, step] using h1
      · simpa only [served, hflag] using h2
      · simpa only [served, hflag] using h3
      · simpa only [served, hflag] using h4
    | dma ev =>
      have hflag : (usartDmaChannelHandler d ev r.state).isRTCExpired = r.state.isRTCExpired := by
        unfold usartDmaChannelHandler
        split <;> rfl
      have hiter : (usartDmaChannelHandler d ev r.state).iteration = r.state.iteration := by
        unfold usartDmaChannelHandler
        split <;> rfl
      obtain ⟨r', h1, h2, h3, h4⟩ :=
        ih { r with state := usartDmaChannelHandler d ev r.state } k hk
          (by rw [← hit]; exact hiter) hd hx
      refine ⟨r', ?_, ?_, ?_, ?_⟩
      · simpa [run, step] using h1
      · simpa only [served, hflag] using h2
      · simpa only [served, hflag] using h3
      · simpa only [served, hflag] using h4
    | poll =>
      by_cases hkN : k = tab.length
      · have hx' : r.exited = true := by rw [hx]; simp [hkN]
        obtain ⟨r', h1, h2, h3, h4⟩ := ih r k hk hit hd hx
        have e1 : ∀ n, min tab.length (k + n) = tab.length := fun n => by
          rw [hkN]; exact Nat.min_eq_left (Nat.le_add_right _ _)
        rw [e1] at h2 h3 h4
        refine ⟨r', ?_, ?_, ?_, ?_⟩
        · simp only [run, step_poll_exited d tab tr r hx']; exact h1
        · rw [e1]; exact h2
        · rw [e1]; exact h3
        · rw [e1]; exact h4
      · have hx' : r.exited = false := by rw [hx]; simp [hkN]
        cases hf : r.state.isRTCExpired with
        | false =>
          obtain ⟨r', h1, h2, h3, h4⟩ := ih r k hk hit hd hx
          rw [hf] at h2 h3 h4
          refine ⟨r', ?_, ?_, ?_, ?_⟩
          · simp only [run, step_poll_idle d tab tr r hf]; exact h1
          · simpa only [served] using h2
          · simpa only [served] using h3
          · simpa only [served] using h4
        | true =>
          have hlt : k < tab.length := Nat.lt_of_le_of_ne hk hkN
          have ht := tableAt_of_lt hlt
          rw [← hit] at ht
          obtain ⟨r1, hs, hf1, hi1, hd1, hx1⟩ := step_poll_dispatch d tab tr r hx' hf ht
          rw [hit, wrap32_natCast_succ hlt hN] at hi1
          rw [hit, maxIterations_eq hN, exit_test hlt hN] at hx1
          rw [hd, hit, ← firstIterations_succ] at hd1
          have hx2 : r1.exited = decide (k + 1 = tab.length) := hx1
          obtain ⟨r', h1, h2, h3, h4⟩ := ih r1 (k + 1) hlt hi1 hd1 hx2
          rw [hf1] at h2 h3 h4
          have e1 : k + 1 + served d false es = k + (1 + served d false es) :=
            Nat.add_assoc k 1 _
          rw [e1] at h2 h3 h4
          refine ⟨r', ?_, ?_, ?_, ?_⟩
          · simp only [run, hs]; exact h1
          · simpa only [served] using h2
          · simpa only [served] using h3
          · simpa only [served] using h4

theorem run_append (d : Definitions) (tab : List (FloatLit × FloatLit)) (tr : TestResult) :
    ∀ (xs ys : List Event) (r : MainRun),
      run d tab tr r (xs ++ ys) = (run d tab tr r xs).bind fun r' => run d tab tr r' ys := by
  intro xs
  induction xs with
  | nil => intro ys r; rfl
  | cons e es ih =>
    intro ys r
    simp only [List.cons_append, run]
    cases step d tab tr r e with
    | none => rfl
    | some r1 => exact ih ys r1

theorem rtcEventHandler_match {d : Definitions} {c : Nat}
    (hc : c &&& d.RTC_MODE0_INTENSET_CMP0_Msk ≠ 0) (s : MainState) :
    rtcEventHandler d c s = { s with isRTCExpired := true } := by
  simp [rtcEventHandler, hc]

theorem step_rtc_flag_set {d : Definitions} (tab : List (FloatLit × FloatLit)) (tr : TestResult)
    {c : Nat} (hc : c &&& d.RTC_MODE0_INTENSET_CMP0_Msk ≠ 0) (r : MainRun)
    (hf : r.state.isRTCExpired = true) :
    step d tab tr r (Event.rtc c) = some r := by
  obtain ⟨⟨f, u, p, q, tp, tf, tt, i⟩, ds, ex⟩ := r
  simp only at hf
  subst hf
  simp [step, rtcEventHandler_match hc]

theorem run_replicate_rtc_flag_set {d : Definitions} (tab : List (FloatLit × FloatLit))
    (tr : TestResult) {c : Nat} (hc : c &&& d.RTC_MODE0_INTENSET_CMP0_Msk ≠ 0) (r : MainRun)
    (hf : r.state.isRTCExpired = true) :
    ∀ k : Nat, run d tab tr r (List.replicate k (Event.rtc c)) = some r := by
  intro k
  induction k with
  | zero => rfl
  | succ n ih =>
    rw [List.replicate_succ]
    simp only [run, step_rtc_flag_set tab tr hc r hf]
    exact ih

theorem run_replicate_rtc {d : Definitions} (tab : List (FloatLit × FloatLit)) (tr : TestResult)
    {c : Nat} (hc : c &&& d.RTC_MODE0_INTENSET_CMP0_Msk ≠ 0) (r : MainRun) (k : Nat) :
    run d tab tr r (List.replicate (k + 1) (Event.rtc c)) =
      some { r with state := { r.state with isRTCExpired := true } } := by
  rw [List.replicate_succ]
  simp only [run, step, rtcEventHandler_match hc]
  exact run_replicate_rtc_flag_set tab tr hc _ rfl k

/-- The score for a tally given by natural numbers whose product by 20 is a
32-bit value. -/
theorem score_of_nat (s : MainState) (p n : Nat) (htp : s.totalPassCount = (p : Int))
    (htt : s.totalTestCount = (n : Int)) (hn : 1 ≤ n) (hp : 20 * p ≤ 2147483647) :
    score s = some ((20 * p / n : Nat) : Int) := by
  have hne : (n : Int) ≠ 0 := by exact_mod_cast Nat.one_le_iff_ne_zero.mp hn
  have hneg : ¬ ((((20 * p : Nat) : Int) = -2147483648) ∧ (n : Int) = -1) := by
    intro h
    have h1 := h.2
    omega
  have hmul : (20 : Int) * (p : Int) = ((20 * p : Nat) : Int) := by push_cast; rfl
  unfold score cdiv32
  rw [htp, htt, if_neg hne, hmul, wrap32_natCast hp, if_neg hneg]
  rfl

theorem run_single (d : Definitions) (tab : List (FloatLit × FloatLit)) (tr : TestResult)
    (r : MainRun) (e : Event) : run d tab tr r [e] = step d tab tr r e := by
  simp only [run]
  cases step d tab tr r e <;> rfl

theorem snprintf_length_le (n : Nat) (text : List Char) : (snprintf n text).length ≤ n := by
  unfold snprintf
  split
  · simp
  · rw [List.length_append, List.length_take, List.length_singleton]
    omega

theorem snprintf_of_fits {n : Nat} {text : List Char} (h : text.length + 1 ≤ n) :
    snprintf n text = text ++ [Char.ofNat 0] := by
  unfold snprintf
  rw [if_neg (by omega), List.take_of_length_le (by omega)]

theorem summaryText_eq (nameStr : List Char) (s : MainState) (sc : Int) :
    summaryText nameStr s sc =
      "========= ".toList ++ (nameStr ++ (": ALL TESTS COMPLETE!\r\ntests passed: ".toList ++
        (fmtLd s.totalPassCount ++ (" \r\ntests failed: ".toList ++
          (fmtLd s.totalFailCount ++ (" \r\ntotal tests:  ".toList ++
            (fmtLd s.totalTestCount ++ (" \r\nscore: ".toList ++
              (fmtLd sc ++ "/20 points \r\n\r\n".toList))))))))) := by
  rfl

/-! ### The three totals
-/

/-- C1: at every point of a run of `main`'s loop, whatever counts `testResult`
writes, `totalPassCount + totalFailCount == totalTestCount` holds in 32-bit
arithmetic; when the sum of the two counters is itself a 32-bit value, the
equality is exact. -/
theorem totals_sum (d : Definitions) (tab : List (FloatLit × FloatLit)) (tr : TestResult)
    (evs : List Event) (r : MainRun) (h : run d tab tr initRun evs = some r) :
    wrap32 (r.state.totalPassCount + r.state.totalFailCount) = r.state.totalTestCount ∧
    (-2147483648 ≤ r.state.totalPassCount + r.state.totalFailCount →
      r.state.totalPassCount + r.state.totalFailCount ≤ 2147483647 →
      r.state.totalPassCount + r.state.totalFailCount = r.state.totalTestCount) := by
  have key : wrap32 (r.state.totalPassCount + r.state.totalFailCount) = r.state.totalTestCount := by
    refine run_induction
      (fun r => wrap32 (r.state.totalPassCount + r.state.totalFailCount) = r.state.totalTestCount)
      ?_ evs initRun r (by decide) h
    intro r e r' hP hs
    rcases step_cases hs with ⟨_, _, h1, h2, h3, _⟩ | ⟨_, _, a, b, _, _, _, _, _, h1, h2, h3, _⟩
    · rw [h1, h2, h3]; exact hP
    · rw [h1, h2, h3]; exact wrap32_sum_step hP
  refine ⟨key, fun h1 h2 => ?_⟩
  rw [← key, wrap32_of_range h1 h2]

theorem totals_sum_witness :
    run exampleDefinitions tc passPassPassFail initRun (ticks 256 16) = some passPassPassFailEnd ∧
    wrap32 (passPassPassFailEnd.state.totalPassCount + passPassPassFailEnd.state.totalFailCount) =
      passPassPassFailEnd.state.totalTestCount :=
  ⟨rfl, (totals_sum exampleDefinitions tc passPassPassFail (ticks 256 16) passPassPassFailEnd rfl).1⟩

/-! ### Totals and score of a pass/fail run
-/

/-- C2: for every run of N >= 1 iterations, on a table of N rows with `20*N`
within the range of `int` (the table `tc` of `main` has 16 rows), in which
`testResult` reports exactly one pass in P of the iterations and exactly one
fail in the other N - P, the loop ends with `totalPassCount == P`,
`totalFailCount == N - P`, and the score is `floor(20*P/N)`. -/
theorem aggregator_totals_and_score (d : Definitions) (tab : List (FloatLit × FloatLit))
    (tr : TestResult) (evs : List Event) (r : MainRun)
    (hN1 : 1 ≤ tab.length) (hN : tab.length ≤ 107374182)
    (hout : ∀ (k : Nat) (a b : FloatLit), tab[k]? = some (a, b) →
      ((tr k a b).passCount = 1 ∧ (tr k a b).failCount = 0) ∨
      ((tr k a b).passCount = 0 ∧ (tr k a b).failCount = 1))
    (h : run d tab tr initRun evs = some r) (hx : r.exited = true) :
    r.state.totalPassCount = (passesBefore tab tr tab.length : Int) ∧
    r.state.totalFailCount = (tab.length : Int) - (passesBefore tab tr tab.length : Int) ∧
    score r.state = some ((20 * passesBefore tab tr tab.length / tab.length : Nat) : Int) := by
  have hN' : tab.length ≤ 2147483647 := Nat.le_trans hN (by decide)
  obtain ⟨k, _, _, hP, htp, htf, htt, hex⟩ := tally_pass_fail d tab tr hN' hout evs r h
  have hk := hex hx
  rw [hk] at htp htf htt hP
  have h20 : 20 * passesBefore tab tr tab.length ≤ 2147483647 :=
    Nat.le_trans (Nat.mul_le_mul_left 20 (Nat.le_trans hP hN)) (by decide)
  exact ⟨htp, htf, score_of_nat r.state _ _ htp htt hN1 h20⟩

theorem aggregator_totals_and_score_witness :
    run exampleDefinitions (tc.take 4) passPassPassFail initRun (ticks 256 4) =
      some fourIterationsEnd ∧
    fourIterationsEnd.state.totalPassCount = 3 ∧
    fourIterationsEnd.state.totalFailCount = 4 - 3 ∧
    score fourIterationsEnd.state = some 15 :=
  ⟨rfl,
    aggregator_totals_and_score exampleDefinitions (tc.take 4) passPassPassFail (ticks 256 4)
      fourIterationsEnd (by decide) (by decide)
      (by intro k a b _; unfold passPassPassFail; split <;> simp) rfl rfl⟩

/-! ### Empty tally
-/

/-- C3 (amended): when a run of `main` ends with `totalTestCount == 0`, the
score expression is evaluated with a zero divisor: nothing replaces the
division, and neither a score nor a report is defined. -/
theorem empty_tally_no_score (d : Definitions) (nameStr : List Char) (tr : TestResult)
    (evs : List Event) (r : MainRun) (hrun : run d tc tr initRun evs = some r)
    (h0 : r.state.totalTestCount = 0) :
    score r.state = none ∧ report nameStr r.state = none ∧ main d nameStr tr evs = none := by
  have hs : score r.state = none := by
    unfold score cdiv32
    rw [if_pos h0]
  have hr : report nameStr r.state = none := by
    unfold report
    rw [hs]
    rfl
  refine ⟨hs, hr, ?_⟩
  unfold main
  rw [hrun]
  show (if r.exited = true then report nameStr r.state else none) = none
  rw [hr]
  split <;> rfl

theorem empty_tally_no_score_witness :
    reportsNothingEnd.state.totalTestCount = 0 ∧
    score reportsNothingEnd.state = none ∧
    report ['a', 'b'] reportsNothingEnd.state = none ∧
    main exampleDefinitions ['a', 'b'] reportsNothing (ticks 256 16 ++ [Event.poll]) = none :=
  ⟨rfl,
    empty_tally_no_score exampleDefinitions ['a', 'b'] reportsNothing
      (ticks 256 16 ++ [Event.poll]) reportsNothingEnd rfl rfl⟩

/-- C3 as stated fails: when no call of `testResult` reports anything, the run
on `tc` ends with `totalTestCount = 0`, and the score expression divides by zero:
neither a score nor a report is defined. -/
theorem empty_tally_divides_by_zero :
    run exampleDefinitions tc reportsNothing initRun (ticks 256 16) = some reportsNothingEnd ∧
    reportsNothingEnd.exited = true ∧
    reportsNothingEnd.state.totalTestCount = 0 ∧
    score reportsNothingEnd.state = none ∧
    main exampleDefinitions ['x'] reportsNothing (ticks 256 16) = none :=
  ⟨rfl, rfl, rfl, rfl, rfl⟩

/-! ### Score and floor
-/

/-- C4 (amended): for every final tally with `totalTestCount > 0`, a pass count
that is not negative and `20*totalPassCount` within the 32-bit range, the score
expression of `main` equals the floor of `20 * totalPass / totalTests`. -/
theorem score_eq_floor (s : MainState) (htt : 0 < s.totalTestCount)
    (htp : 0 ≤ s.totalPassCount) (hmul : 20 * s.totalPassCount ≤ 2147483647) :
    score s = some (Int.fdiv (20 * s.totalPassCount) s.totalTestCount) := by
  have hne : s.totalTestCount ≠ 0 := ne_of_gt htt
  have h20 : (0 : Int) ≤ 20 * s.totalPassCount := Int.mul_nonneg (by decide) htp
  have hneg : ¬ (20 * s.totalPassCount = -2147483648 ∧ s.totalTestCount = -1) := by
    intro h
    have h1 := h.2
    omega
  unfold score cdiv32
  rw [if_neg hne, wrap32_of_range (le_trans (by decide) h20) hmul, if_neg hneg,
    Int.tdiv_eq_ediv h20 (le_of_lt htt), Int.fdiv_eq_ediv _ (le_of_lt htt)]

theorem score_eq_floor_witness :
    score fourIterationsEnd.state = some 15 :=
  score_eq_floor fourIterationsEnd.state (by decide) (by decide) (by decide)

/-- C4 as stated fails: the run on `tc` in which iteration 0 reports 107374183
passes ends with `totalPassCount = totalTestCount = 107374183`; the product
`20*totalPassCount` leaves the 32-bit range and the score is -19, while the floor
of `20 * totalPass / totalTests` is 20. -/
theorem score_not_floor :
    run exampleDefinitions tc manyPassesAtOnce initRun (ticks 256 16) = some manyPassesEnd ∧
    0 < manyPassesEnd.state.totalTestCount ∧
    score manyPassesEnd.state = some (-19) ∧
    Int.fdiv (20 * manyPassesEnd.state.totalPassCount) manyPassesEnd.state.totalTestCount = 20 :=
  ⟨rfl, by decide, rfl, rfl⟩

/-! ### Total tests and iterations
-/

/-- C5 (amended): when every call of `testResult` reports exactly one outcome
(`failCount + passCount == 1`), `totalTestCount` equals the iteration counter,
which is the number of iterations dispatched so far, at every point of the run. -/
theorem totalTestCount_counts_iterations (d : Definitions) (tab : List (FloatLit × FloatLit))
    (tr : TestResult) (evs : List Event) (r : MainRun)
    (hN : tab.length ≤ 2147483647)
    (hone : ∀ (k : Nat) (a b : FloatLit), tab[k]? = some (a, b) →
      (tr k a b).failCount + (tr k a b).passCount = 1)
    (h : run d tab tr initRun evs = some r) :
    r.state.totalTestCount = r.state.iteration ∧
    r.state.iteration = (r.dispatched.length : Int) := by
  have key : ∃ k : Nat, r.state.iteration = (k : Int) ∧ k ≤ tab.length ∧
      r.state.totalTestCount = (k : Int) ∧ r.dispatched.length = k := by
    refine run_induction
      (fun r => ∃ k : Nat, r.state.iteration = (k : Int) ∧ k ≤ tab.length ∧
        r.state.totalTestCount = (k : Int) ∧ r.dispatched.length = k)
      ?_ evs initRun r ⟨0, by simp [initRun, initState]⟩ h
    rintro r e r' ⟨k, hk, hkN, htt, hd⟩ hs
    rcases step_cases hs with ⟨h0, _, _, _, h3, h4, _⟩ |
      ⟨_, _, a, b, hab, h0, _, _, _, _, _, h3, h4⟩
    · exact ⟨k, by rw [h4, hk], hkN, by rw [h3, htt], by rw [h0, hd]⟩
    · rw [hk] at hab h3 h4
      obtain ⟨hget, hlt⟩ := tableAt_natCast hab
      refine ⟨k + 1, ?_, by omega, ?_, ?_⟩
      · rw [h4, wrap32_of_range (by omega) (by omega)]; push_cast; rfl
      · rw [h3, htt, hone k a b hget, wrap32_one,
          wrap32_of_range (by omega) (by omega)]
        push_cast; rfl
      · rw [h0, List.length_append, hd]; rfl
  obtain ⟨k, hk, _, htt, hd⟩ := key
  exact ⟨by rw [htt, hk], by rw [hk, hd]⟩

theorem totalTestCount_counts_iterations_witness :
    passPassPassFailEnd.state.totalTestCount = passPassPassFailEnd.state.iteration ∧
    passPassPassFailEnd.state.iteration = (passPassPassFailEnd.dispatched.length : Int) :=
  totalTestCount_counts_iterations exampleDefinitions tc passPassPassFail (ticks 256 16)
    passPassPassFailEnd (by decide)
    (by intro k a b _; unfold passPassPassFail; split <;> rfl) rfl

/-- C5 as stated fails: when `testResult` reports neither a pass nor a fail,
one iteration is completed and `totalTestCount` is still 0. -/
theorem totalTestCount_not_iterations :
    ∃ r, run exampleDefinitions tc reportsNothing initRun [Event.rtc 256, Event.poll] = some r ∧
      r.dispatched = [0] ∧ r.state.iteration = 1 ∧ r.state.totalTestCount = 0 ∧
      r.state.totalTestCount ≠ r.state.iteration :=
  ⟨_, rfl, rfl, rfl, rfl, by decide⟩

/-! ### Size of the report
-/

/-- C6: for every suite name, tally and score value, the bytes that the final
`snprintf` stores in `uartTxBuffer`, terminator included, are at most
`MAX_PRINT_LEN` = 1000, the size of the buffer; so is the report of every run of
`main`. -/
theorem summary_within_buffer (d : Definitions) (nameStr : List Char) (tr : TestResult)
    (evs : List Event) (s : MainState) (sc : Int) :
    MAX_PRINT_LEN = 1000 ∧
    (snprintf MAX_PRINT_LEN (summaryText nameStr s sc)).length ≤ MAX_PRINT_LEN ∧
    (report nameStr s).all (fun buf => decide (buf.length ≤ MAX_PRINT_LEN)) = true ∧
    (main d nameStr tr evs).all (fun buf => decide (buf.length ≤ MAX_PRINT_LEN)) = true := by
  have hrep : ∀ s : MainState,
      (report nameStr s).all (fun buf => decide (buf.length ≤ MAX_PRINT_LEN)) = true := by
    intro s
    unfold report
    cases score s with
    | none => rfl
    | some v =>
      simp only [Option.map, Option.all, decide_eq_true_eq]
      exact snprintf_length_le _ _
  refine ⟨rfl, snprintf_length_le _ _, hrep s, ?_⟩
  unfold main
  cases run d tc tr initRun evs with
  | none => rfl
  | some r =>
    cases hx : r.exited with
    | false => simp [hx]
    | true => simpa [hx] using hrep r.state

/-! ### Text of the report
-/

/-- C7 (amended): for every suite name and final tally whose formatted text fits
the buffer, the report is `========= <name>: ALL TESTS COMPLETE!`, then
`tests passed: <totalPass>`, `tests failed: <totalFail>`,
`total tests:  <totalTests>` (two spaces after the colon) and
`score: <score>/20 points`, each integer in decimal and followed by one space,
each line ended by CR-LF, and the text ends with two consecutive CR-LF before
the terminator. -/
theorem report_text (nameStr : List Char) (s : MainState) (sc : Int)
    (hs : score s = some sc)
    (hfit : (summaryText nameStr s sc).length + 1 ≤ MAX_PRINT_LEN) :
    report nameStr s = some
      ("========= ".toList ++ nameStr ++ ": ALL TESTS COMPLETE!\r\n".toList ++
       "tests passed: ".toList ++ fmtLd s.totalPassCount ++ " \r\n".toList ++
       "tests failed: ".toList ++ fmtLd s.totalFailCount ++ " \r\n".toList ++
       "total tests:  ".toList ++ fmtLd s.totalTestCount ++ " \r\n".toList ++
       "score: ".toList ++ fmtLd sc ++ "/20 points \r\n".toList ++ "\r\n".toList ++
       [Char.ofNat 0]) := by
  unfold report
  rw [hs, Option.map, snprintf_of_fits hfit, summaryText_eq]
  simp only [List.append_assoc]
  rfl

theorem report_text_witness :
    report ['x'] fourIterationsEnd.state = some
      ("========= x: ALL TESTS COMPLETE!\r\ntests passed: 3 \r\ntests failed: 1 \r\ntotal tests:  4 \r\nscore: 15/20 points \r\n\r\n".toList ++
       [Char.ofNat 0]) :=
  report_text ['x'] fourIterationsEnd.state 15 rfl (by decide)

/-- C7 as stated fails: in the report for the tally 3 passed, 1 failed, 4 tests,
the text `total tests: 4` does not occur (the format puts two spaces after the
colon). -/
theorem report_lacks_total_tests_line :
    ∃ buf, report ['x'] fourIterationsEnd.state = some buf ∧
      ¬ List.IsInfix "total tests: 4".toList buf :=
  ⟨_, rfl, by decide⟩

/-! ### Order of dispatch
-/

/-- C8: on the table `tc` (16 entries) every event sequence is run without an
access outside the table; the iterations dispatched are 0, 1, 2, ... in this
order, one for each poll that finds the flag set, up to 16; and the loop has
exited exactly when 16 polls have found the flag set. -/
theorem dispatch_follows_table (d : Definitions) (tr : TestResult) (evs : List Event) :
    maxIterations tc = 16 ∧
    firstIterations 16 = [0, 1, 2, 3, 4, 5, 6, 7, 8, 9, 10, 11, 12, 13, 14, 15] ∧
    ∃ r, run d tc tr initRun evs = some r ∧
      r.dispatched = firstIterations (min 16 (served d false evs)) ∧
      r.state.iteration = (min 16 (served d false evs) : Nat) ∧
      r.exited = decide (16 ≤ served d false evs) := by
  refine ⟨by decide, by decide, ?_⟩
  have hlen : tc.length = 16 := by decide
  obtain ⟨r, h1, h2, h3, h4⟩ :=
    run_spec d tc tr (by decide) evs initRun 0
      (by decide) rfl rfl (by decide)
  rw [hlen] at h2 h3 h4
  simp only [Nat.zero_add] at h2 h3 h4
  have hflag : initRun.state.isRTCExpired = false := rfl
  rw [hflag] at h2 h3 h4
  refine ⟨r, h1, h3, h2, ?_⟩
  rw [h4]
  apply decide_eq_decide.mpr
  omega

/-! ### The expiration flag
-/

/-- C9: for every k >= 1, k compare-match calls of `rtcEventHandler` between two
polls leave the same state as one call; the next poll clears the flag and
dispatches exactly one iteration, and the poll after it, finding the flag clear,
dispatches nothing; a poll that finds the flag clear leaves the whole state,
tally and iteration index included, as it was. -/
theorem expiration_flag_single_slot (d : Definitions) (tab : List (FloatLit × FloatLit))
    (tr : TestResult) (r : MainRun) (c k : Nat) (hk : 1 ≤ k)
    (hc : c &&& d.RTC_MODE0_INTENSET_CMP0_Msk ≠ 0) :
    run d tab tr r (List.replicate k (Event.rtc c)) = run d tab tr r [Event.rtc c] ∧
    (∀ a b, r.exited = false → tableAt tab r.state.iteration = some (a, b) →
      ∃ r', run d tab tr r (List.replicate k (Event.rtc c) ++ [Event.poll]) = some r' ∧
        r'.dispatched = r.dispatched ++ [r.state.iteration] ∧
        r'.state.isRTCExpired = false ∧
        step d tab tr r' Event.poll = some r') ∧
    (r.state.isRTCExpired = false → step d tab tr r Event.poll = some r) := by
  obtain ⟨j, rfl⟩ : ∃ j, k = j + 1 := ⟨k - 1, (Nat.sub_add_cancel hk).symm⟩
  have hrep := run_replicate_rtc tab tr hc r j
  refine ⟨?_, ?_, step_poll_idle d tab tr r⟩
  · rw [hrep, run_single]
    simp only [step, rtcEventHandler_match hc]
  · intro a b hx ht
    obtain ⟨r', hs, hf, _, hd, _⟩ :=
      step_poll_dispatch d tab tr { r with state := { r.state with isRTCExpired := true } }
        hx rfl ht
    refine ⟨r', ?_, hd, hf, step_poll_idle d tab tr r' hf⟩
    rw [run_append, hrep]
    simp only [Option.bind, run_single]
    exact hs

theorem expiration_flag_single_slot_witness :
    run exampleDefinitions tc passPassPassFail initRun (List.replicate 3 (Event.rtc 256)) =
      run exampleDefinitions tc passPassPassFail initRun [Event.rtc 256] ∧
    (∀ a b, initRun.exited = false → tableAt tc initRun.state.iteration = some (a, b) →
      ∃ r', run exampleDefinitions tc passPassPassFail initRun
          (List.replicate 3 (Event.rtc 256) ++ [Event.poll]) = some r' ∧
        r'.dispatched = initRun.dispatched ++ [initRun.state.iteration] ∧
        r'.state.isRTCExpired = false ∧
        step exampleDefinitions tc passPassPassFail r' Event.poll = some r') ∧
    (initRun.state.isRTCExpired = false →
      step exampleDefinitions tc passPassPassFail initRun Event.poll = some initRun) :=
  expiration_flag_single_slot exampleDefinitions tc passPassPassFail initRun 256 3
    (by decide) (by decide)

/-! ### The channel flag
-/

/-- C10 (amended): one pass through the loop body dispatches an iteration exactly
when it finds `isRTCExpired` set, whatever the value of `isUSARTTxComplete`: the
loop of `main` does not test the channel flag before it dispatches. The channel
flag is set at every point of every run under the condition that `testResult`
always returns with it set. -/
theorem dispatch_gate (d : Definitions) (tab : List (FloatLit × FloatLit)) (tr : TestResult)
    (s : MainState) (res : LoopResult) (h : loopBody tab tr s = some res) :
    (res.dispatched = some s.iteration ↔ s.isRTCExpired = true) ∧
    (res.dispatched = none ↔ s.isRTCExpired = false) ∧
    (loopBody tab tr { s with isUSARTTxComplete := !s.isUSARTTxComplete }).map
      (fun x => x.dispatched) = some res.dispatched ∧
    ((∀ i a b, (tr i a b).isUSARTTxComplete = true) →
      ∀ (evs : List Event) (r : MainRun), run d tab tr initRun evs = some r →
        r.state.isUSARTTxComplete = true) := by
  have hidle : (∀ i a b, (tr i a b).isUSARTTxComplete = true) →
      ∀ (evs : List Event) (r : MainRun), run d tab tr initRun evs = some r →
        r.state.isUSARTTxComplete = true := by
    intro hall evs r hrun
    refine run_induction (fun r => r.state.isUSARTTxComplete = true) ?_ evs initRun r rfl hrun
    intro r e r' hP hs
    rcases step_cases hs with ⟨_, _, _, _, _, _, hu⟩ | ⟨_, _, a, b, _, _, _, _, hu, _⟩
    · rcases hu with hu | hu
      · exact hu
      · rw [hu]; exact hP
    · rw [hu]; exact hall _ a b
  unfold loopBody at h ⊢
  cases hf : s.isRTCExpired with
  | false =>
    simp only [hf, Bool.false_eq_true, if_false, Option.some.injEq] at h
    subst h
    exact ⟨by simp, by simp, by simp, hidle⟩
  | true =>
    simp only [hf, if_true] at h
    cases ht : tableAt tab s.iteration with
    | none => simp [ht] at h
    | some ab =>
      simp only [ht, Option.some.injEq] at h
      subst h
      exact ⟨by simp, by simp, by simp [ht], hidle⟩

theorem dispatch_gate_witness :
    (busyStateResult.dispatched = some busyState.iteration ↔ busyState.isRTCExpired = true) ∧
    (busyStateResult.dispatched = none ↔ busyState.isRTCExpired = false) ∧
    (loopBody tc passPassPassFail
        { busyState with isUSARTTxComplete := !busyState.isUSARTTxComplete }).map
      (fun x => x.dispatched) = some busyStateResult.dispatched ∧
    ((∀ i a b, (passPassPassFail i a b).isUSARTTxComplete = true) →
      ∀ (evs : List Event) (r : MainRun),
        run exampleDefinitions tc passPassPassFail initRun evs = some r →
        r.state.isUSARTTxComplete = true) :=
  dispatch_gate exampleDefinitions tc passPassPassFail busyState busyStateResult rfl

/-- C10 as stated fails: when `testResult` returns with `isUSARTTxComplete`
cleared, the next timer tick finds the channel flag false and the timer flag
true, and the poll dispatches iteration 1 all the same. -/
theorem dispatch_while_channel_busy :
    ∃ r1 r2,
      run exampleDefinitions tc leavesChannelBusy initRun
        [Event.rtc 256, Event.poll, Event.rtc 256] = some r1 ∧
      r1.state.isRTCExpired = true ∧ r1.state.isUSARTTxComplete = false ∧
      step exampleDefinitions tc leavesChannelBusy r1 Event.poll = some r2 ∧
      r2.dispatched = [0, 1] :=
  ⟨_, _, rfl, rfl, rfl, rfl, rfl⟩

end Lab10Float
